import Mathlib

/-! Chain listener of the hamster provider

A shallow embedding of `core/modules/listener/chain_listener.go`.

The listener talks to four collaborators that live outside the file: the
configuration manager (`l.cm`), the report client (`l.reportClient`), the
lifecycle sink (`l.eventService`) and the chain RPC client (`l.api`).  Every call
that has an effect on one of them, and every operation on a cancellable context,
is recorded in a trace (`World.trace`, oldest call first).  What a collaborator
answers is given by an environment `Env`; an answer may depend on all the calls
recorded so far, so a value saved earlier can be read back later, a second
registration can be rejected, and so on.

Integers of the source (`uint64`, `types.U64`) are natural numbers; the listener
only copies and compares them, it performs no arithmetic.
A Go `panic(err)` is the result `Except.error err`.
-/

namespace listener

/-- A Go `error` value, identified with its message. -/
abbrev Error := String

/-- The type `types.U64` of the chain client. -/
abbrev U64 := Nat

/-- The conversion `types.NewU64(u)`. -/
def NewU64 (u : Nat) : U64 := u

/-- The conversion `uint64(u)`. -/
def uint64 (u : U64) : Nat := u

/-- Modelled from the spec: the three operation tags of package `event`
(`OPCreatedVm`, `OPRenewVM`, `OPDestroyVm`), declared outside this file; the spec
names the request variants Create, Renew and Destroy. -/
inductive OpTag where
  | OPCreatedVm
  | OPRenewVM
  | OPDestroyVm
  deriving DecidableEq, Repr

/-- The request `event.VmRequest` handed to the lifecycle sink.  A field the
source leaves out of a composite literal holds its zero value (`0` or `""`). -/
structure VmRequest where
  Tag : OpTag
  Cpu : Nat := 0
  Mem : Nat := 0
  Disk : Nat := 0
  OrderNo : Nat := 0
  System : String := ""
  PublicKey : String := ""
  Image : String := ""
  deriving DecidableEq, Repr

/-- The section `cfg.Identity` of the configuration. -/
structure Identity where
  PeerID : String
  deriving DecidableEq, Repr

/-- The section `cfg.Vm` of the configuration: the shape of the machine on offer. -/
structure Vm where
  Cpu : Nat
  Mem : Nat
  Disk : Nat
  System : String
  Image : String
  deriving DecidableEq, Repr

/-- The section `cfg.ChainRegInfo` of the configuration. -/
structure ChainRegInfo where
  ResourceIndex : Nat
  OrderIndex : Nat
  Price : Nat
  deriving DecidableEq, Repr

/-- The configuration `config.Config`, restricted to the sections the listener
reads or writes. -/
structure Config where
  Identity : Identity
  Vm : Vm
  ChainRegInfo : ChainRegInfo
  deriving DecidableEq, Repr

/-- The descriptor `chain2.ResourceInfo` sent to the chain on registration. -/
structure ResourceInfo where
  PeerId : String
  Cpu : Nat
  Memory : Nat
  System : String
  CpuModel : String
  Price : Nat
  ExpireTime : Nat
  deriving DecidableEq, Repr

/-- Modelled from the spec: the event `chain2.EventResourceOrderCreateOrderSuccess`,
whose declaration is outside this file.  `Phase`, `OrderIndex`, `ResourceIndex`
and `PublicKey` are the fields the source reads; `Cpu`, `Mem`, `Disk`, `System`
and `Image` are the payload the spec's data model gives a Created event. -/
structure EventResourceOrderCreateOrderSuccess where
  Phase : Nat
  OrderIndex : U64
  ResourceIndex : U64
  PublicKey : String
  Cpu : Nat
  Mem : Nat
  Disk : Nat
  System : String
  Image : String
  deriving DecidableEq, Repr

/-- Modelled from the spec: the event `chain2.EventResourceOrderReNewOrderSuccess`,
whose declaration is outside this file; the source reads `ResourceIndex` and
`OrderIndex`. -/
structure EventResourceOrderReNewOrderSuccess where
  OrderIndex : U64
  ResourceIndex : U64
  deriving DecidableEq, Repr

/-- Modelled from the spec: the event
`chain2.EventResourceOrderWithdrawLockedOrderPriceSuccess`, whose declaration is
outside this file; the source reads `OrderIndex` only, the spec's data model
gives every event a resource index as well. -/
structure EventResourceOrderWithdrawLockedOrderPriceSuccess where
  OrderIndex : U64
  ResourceIndex : U64
  deriving DecidableEq, Repr

/-- The decoded records `chain2.MyEventRecords`: the three lists the watch loop
walks through. -/
structure MyEventRecords where
  ResourceOrder_CreateOrderSuccess : List EventResourceOrderCreateOrderSuccess
  ResourceOrder_ReNewOrderSuccess : List EventResourceOrderReNewOrderSuccess
  ResourceOrder_WithdrawLockedOrderPriceSuccess :
    List EventResourceOrderWithdrawLockedOrderPriceSuccess
  deriving DecidableEq, Repr

/-- One storage delta `types.KeyValueOption` of a change-set. -/
structure KeyValueOption where
  StorageKey : List Nat
  HasStorageData : Bool
  StorageData : List Nat
  deriving DecidableEq, Repr

/-- A change-set `types.StorageChangeSet` delivered by the subscription. -/
structure StorageChangeSet where
  Block : Nat
  Changes : List KeyValueOption
  deriving DecidableEq, Repr

/-- A call the listener makes that has an effect outside itself.  Contexts made by
`context.WithCancel` are numbered in the order of their creation. -/
inductive Action where
  /-- The cancel function of context `ctx` is called. -/
  | cancel (ctx : Nat)
  /-- The call `l.reportClient.RegisterResource(r)`. -/
  | RegisterResource (r : ResourceInfo)
  /-- The call `l.reportClient.RemoveResource(index)`. -/
  | RemoveResource (index : Nat)
  /-- The call `context.WithCancel(context.Background())`, which makes context `ctx`. -/
  | WithCancel (ctx : Nat)
  /-- The statement `go l.watchEvent(ctx)`. -/
  | watchEvent (ctx : Nat)
  /-- The call `l.cm.Save(cfg)`. -/
  | Save (cfg : Config)
  /-- The call `l.eventService.Create(evt)`. -/
  | Create (evt : VmRequest)
  /-- The call `l.eventService.Renew(evt)`. -/
  | Renew (evt : VmRequest)
  /-- The call `l.eventService.Destroy(evt)`. -/
  | Destroy (evt : VmRequest)
  deriving DecidableEq, Repr

/-- The chain metadata `types.Metadata` of the chain client, identified by a
number; the listener only hands it on to the decoder. -/
abbrev Metadata := Nat

/-- What a call `types.EventRecordsRaw(storageData).DecodeEventRecords(meta, &evt)`
of the chain client can do: return nil with the records filled in, return an
error, or panic (the decoder dereferences `meta`, which the listener may pass as
nil). -/
inductive DecodeResult where
  /-- The call returns nil; `evt` holds the decoded records. -/
  | records (evt : MyEventRecords)
  /-- The call returns the error `err`. -/
  | failure (err : Error)
  /-- The call panics with `err`. -/
  | panic (err : Error)
  deriving DecidableEq, Repr

/-- The answers of the collaborators.  Each answer may depend on the calls
recorded so far. -/
structure Env where
  /-- The result of `l.cm.GetConfig()`. -/
  GetConfig : List Action → Except Error Config
  /-- The result of `l.reportClient.RegisterResource(r)`; `none` is a nil error. -/
  RegisterResource : List Action → ResourceInfo → Option Error
  /-- The result of `l.reportClient.RemoveResource(index)`; `none` is a nil error. -/
  RemoveResource : List Action → Nat → Option Error
  /-- The result of `utils.GetCpuModel()`. -/
  GetCpuModel : String
  /-- The value of `time.Now().AddDate(0, 0, 10)`. -/
  NowAddDate : List Action → Nat
  /-- The result of the first `l.api.RPC.State.GetMetadataLatest()` of the watch
  task; `none` is a nil error. -/
  GetMetadataLatest : Option Error
  /-- The result of `types.CreateStorageKey(meta, "System", "Events", nil)`. -/
  CreateStorageKey : Except Error (List Nat)
  /-- The result of `l.api.RPC.State.SubscribeStorageRaw`; `none` is a nil error. -/
  SubscribeStorageRaw : Option Error
  /-- The result `(meta, err)` of the `l.api.RPC.State.GetMetadataLatest()` inside
  the loop (line 121); `none` is a nil pointer, a nil error. -/
  GetMetadataLatestAt : List Action → Option Metadata × Option Error
  /-- The outcome of `types.EventRecordsRaw(storageData).DecodeEventRecords(meta, &evt)`
  for the metadata pointer and the storage data it is given. -/
  DecodeEventRecords : Option Metadata → List Nat → DecodeResult

/-- The fields `cancel` and `ctx2` of `ChainListener`; `none` is nil, `some c` is
the cancel function (the context) of context number `c`.  The other four fields
are the collaborators, which `Env` stands for. -/
structure ChainListener where
  cancel : Option Nat
  ctx2 : Option Nat
  deriving DecidableEq, Repr

/-- The listener together with what it has done so far. -/
structure World where
  /-- The listener object. -/
  l : ChainListener
  /-- The number of contexts made so far. -/
  contexts : Nat
  /-- The calls made so far, oldest first. -/
  trace : List Action
  deriving DecidableEq, Repr

/-- The constructor `NewChainListener`: both `cancel` and `ctx2` are nil. -/
def NewChainListener : ChainListener :=
  { cancel := none, ctx2 := none }

/-- The world right after `NewChainListener`. -/
def World.init : World :=
  { l := NewChainListener, contexts := 0, trace := [] }

/-- The method `GetState`: `l.cancel != nil`. -/
def GetState (l : ChainListener) : Bool :=
  l.cancel != none

/-- The handler `dealCreateOrderSuccess`. -/
def dealCreateOrderSuccess (env : Env) (w : World)
    (e : EventResourceOrderCreateOrderSuccess) : Except Error World :=
  match env.GetConfig w.trace with
  | .error err => .error err
  | .ok cfg =>
    if e.ResourceIndex = NewU64 cfg.ChainRegInfo.ResourceIndex then
      let cfg : Config :=
        { cfg with ChainRegInfo := { cfg.ChainRegInfo with OrderIndex := uint64 e.OrderIndex } }
      let evt : VmRequest :=
        { Tag := OpTag.OPCreatedVm
          Cpu := cfg.Vm.Cpu
          Mem := cfg.Vm.Mem
          Disk := cfg.Vm.Disk
          OrderNo := uint64 e.OrderIndex
          System := cfg.Vm.System
          PublicKey := e.PublicKey
          Image := cfg.Vm.Image }
      .ok { w with trace := w.trace ++ [Action.Save cfg, Action.Create evt] }
    else
      .ok w

/-- The handler `dealReNewOrderSuccess`. -/
def dealReNewOrderSuccess (env : Env) (w : World)
    (e : EventResourceOrderReNewOrderSuccess) : Except Error World :=
  match env.GetConfig w.trace with
  | .error err => .error err
  | .ok cfg =>
    if e.ResourceIndex = NewU64 cfg.ChainRegInfo.ResourceIndex then
      let evt : VmRequest :=
        { Tag := OpTag.OPRenewVM
          OrderNo := uint64 e.OrderIndex }
      .ok { w with trace := w.trace ++ [Action.Renew evt] }
    else
      .ok w

/-- The handler `dealCancelOrderSuccess`. -/
def dealCancelOrderSuccess (env : Env) (w : World)
    (e : EventResourceOrderWithdrawLockedOrderPriceSuccess) : Except Error World :=
  match env.GetConfig w.trace with
  | .error err => .error err
  | .ok cfg =>
    if e.OrderIndex = NewU64 cfg.ChainRegInfo.OrderIndex then
      let evt : VmRequest :=
        { Tag := OpTag.OPDestroyVm
          Cpu := cfg.Vm.Cpu
          Mem := cfg.Vm.Mem
          Disk := cfg.Vm.Disk
          OrderNo := uint64 e.OrderIndex
          System := cfg.Vm.System
          Image := cfg.Vm.Image }
      .ok { w with trace := w.trace ++ [Action.Destroy evt] }
    else
      .ok w

/-- The first statement of `start`: `if l.cancel != nil { l.cancel() }`.  The
field `cancel` keeps its value. -/
def startCancel (w : World) : World :=
  match w.l.cancel with
  | some c => { w with trace := w.trace ++ [Action.cancel c] }
  | none => w

/-- The descriptor `start` builds from the configuration. -/
def resourceInfo (env : Env) (tr : List Action) (cfg : Config) : ResourceInfo :=
  { PeerId := cfg.Identity.PeerID
    Cpu := cfg.Vm.Cpu
    Memory := cfg.Vm.Mem
    System := cfg.Vm.System
    CpuModel := env.GetCpuModel
    Price := cfg.ChainRegInfo.Price
    ExpireTime := env.NowAddDate tr }

/-- The method `start`; the second component is the returned error, `none` for nil. -/
def start (env : Env) (w : World) : World × Option Error :=
  let w := startCancel w
  match env.GetConfig w.trace with
  | .error err => (w, some err)
  | .ok cfg =>
    let resource := resourceInfo env w.trace cfg
    let err := env.RegisterResource w.trace resource
    let w := { w with trace := w.trace ++ [Action.RegisterResource resource] }
    match err with
    | some err => (w, some err)
    | none =>
      let c := w.contexts
      ({ l := { cancel := some c, ctx2 := some c }
         contexts := c + 1
         trace := w.trace ++ [Action.WithCancel c, Action.watchEvent c] }, none)

/-- The first statement of `stop`: `if l.cancel != nil { l.cancel(); l.cancel = nil }`. -/
def stopCancel (w : World) : World :=
  match w.l.cancel with
  | some c => { w with l := { w.l with cancel := none }, trace := w.trace ++ [Action.cancel c] }
  | none => w

/-- The method `stop`; the second component is the returned error, `none` for nil. -/
def stop (env : Env) (w : World) : World × Option Error :=
  let w := stopCancel w
  match env.GetConfig w.trace with
  | .error err => (w, some err)
  | .ok cfg =>
    let index := cfg.ChainRegInfo.ResourceIndex
    ({ w with trace := w.trace ++ [Action.RemoveResource index] },
      env.RemoveResource w.trace index)

/-- The method `SetState`. -/
def SetState (env : Env) (option : Bool) (w : World) : World × Option Error :=
  if option then start env w else stop env w

/-- A `for _, e := range` loop that calls a handler on every element in turn; a
panic ends it. -/
def rangeDeal {ε : Type} (deal : World → ε → Except Error World) :
    World → List ε → Except Error World
  | w, [] => .ok w
  | w, e :: es =>
    match deal w e with
    | .error err => .error err
    | .ok w1 => rangeDeal deal w1 es

/-- The three handler loops the watch task runs on decoded records. -/
def dealRecords (env : Env) (w : World) (evt : MyEventRecords) : Except Error World :=
  match rangeDeal (dealCreateOrderSuccess env) w evt.ResourceOrder_CreateOrderSuccess with
  | .error err => .error err
  | .ok w1 =>
    match rangeDeal (dealReNewOrderSuccess env) w1 evt.ResourceOrder_ReNewOrderSuccess with
    | .error err => .error err
    | .ok w2 =>
      rangeDeal (dealCancelOrderSuccess env) w2
        evt.ResourceOrder_WithdrawLockedOrderPriceSuccess

/-- The loop `for _, chng := range set.Changes` of the watch task.  The error that
`GetMetadataLatest` returns at line 121 is overwritten at line 122 without being
looked at, so only the metadata pointer of its result is used. -/
def rangeChanges (env : Env) (key : List Nat) : World → List KeyValueOption → Except Error World
  | w, [] => .ok w
  | w, chng :: rest =>
    if chng.StorageKey ≠ key ∨ chng.HasStorageData = false then
      rangeChanges env key w rest
    else
      let meta := (env.GetMetadataLatestAt w.trace).1
      match env.DecodeEventRecords meta chng.StorageData with
      | .panic err => .error err
      | .failure _ => rangeChanges env key w rest
      | .records evt =>
        match dealRecords env w evt with
        | .error err => .error err
        | .ok w1 => rangeChanges env key w1 rest

/-- The `for { select { ... } }` loop of the watch task.  Each element of the
list is what one `select` received: `none` is `ctx.Done()`, `some set` a
change-set of the subscription.  When the list is used up the task is waiting in
`select`. -/
def watchLoop (env : Env) (key : List Nat) : World → List (Option StorageChangeSet) →
    Except Error World
  | w, [] => .ok w
  | w, none :: _ => .ok w
  | w, some set :: rest =>
    match rangeChanges env key w set.Changes with
    | .error err => .error err
    | .ok w1 => watchLoop env key w1 rest

/-- The method `watchEvent`, run on what its `select` receives. -/
def watchEvent (env : Env) (w : World) (received : List (Option StorageChangeSet)) :
    Except Error World :=
  match env.GetMetadataLatest with
  | some err => .error err
  | none =>
    match env.CreateStorageKey with
    | .error err => .error err
    | .ok key =>
      match env.SubscribeStorageRaw with
      | some err => .error err
      | none => watchLoop env key w received

/-- The contexts a watch task was started on, oldest first. -/
def tasks : List Action → List Nat
  | [] => []
  | Action.watchEvent c :: tr => c :: tasks tr
  | _ :: tr => tasks tr

/-- Whether the cancel function of context `c` has been called. -/
def cancelled (tr : List Action) (c : Nat) : Bool :=
  decide (Action.cancel c ∈ tr)

/-- The watch tasks whose context has not been cancelled. -/
def liveTasks (tr : List Action) : List Nat :=
  (tasks tr).filter (fun c => !cancelled tr c)

/-- Whether an action is a call of `RegisterResource`. -/
def Action.isRegisterResource : Action → Bool
  | Action.RegisterResource _ => true
  | _ => false

/-- Whether an action is a call of `RemoveResource`. -/
def Action.isRemoveResource : Action → Bool
  | Action.RemoveResource _ => true
  | _ => false

/-- Whether an action is a call of the lifecycle sink. -/
def Action.isRequest : Action → Bool
  | Action.Create _ => true
  | Action.Renew _ => true
  | Action.Destroy _ => true
  | _ => false

/-- Whether an action is a call of `Save`. -/
def Action.isSave : Action → Bool
  | Action.Save _ => true
  | _ => false

/-- The configuration saved last in a trace, `cfg` when none was. -/
def lastSaved (cfg : Config) : List Action → Config
  | [] => cfg
  | Action.Save c :: tr => lastSaved c tr
  | _ :: tr => lastSaved cfg tr

/-- Collaborators that never fail: the configuration manager holds `cfg` until a
configuration is saved and then returns the one saved last, the chain accepts
every registration and removal, the metadata is always fetched, and storage data
decodes to `records` whatever its bytes. -/
def Env.reliable (cfg : Config) (records : MyEventRecords) : Env :=
  { GetConfig := fun tr => .ok (lastSaved cfg tr)
    RegisterResource := fun _ _ => none
    RemoveResource := fun _ _ => none
    GetCpuModel := "cpu"
    NowAddDate := fun _ => 10
    GetMetadataLatest := none
    CreateStorageKey := .ok [1]
    SubscribeStorageRaw := none
    GetMetadataLatestAt := fun _ => (some 14, none)
    DecodeEventRecords := fun _ _ => .records records }

/-- A sample configuration: resource 7, no order yet, a machine with 2 cpus and
4096 of memory. -/
def sampleConfig : Config :=
  { Identity := { PeerID := "peer" }
    Vm := { Cpu := 2, Mem := 4096, Disk := 50, System := "ubuntu", Image := "img" }
    ChainRegInfo := { ResourceIndex := 7, OrderIndex := 0, Price := 1 } }

/-- The empty decoded records. -/
def noRecords : MyEventRecords :=
  { ResourceOrder_CreateOrderSuccess := []
    ResourceOrder_ReNewOrderSuccess := []
    ResourceOrder_WithdrawLockedOrderPriceSuccess := [] }

/-- A Created event for resource 7 and order 42 that carries 2 cpus and 4096 of
memory. -/
def sampleCreated : EventResourceOrderCreateOrderSuccess :=
  { Phase := 0, OrderIndex := 42, ResourceIndex := 7, PublicKey := "pk"
    Cpu := 2, Mem := 4096, Disk := 50, System := "ubuntu", Image := "img" }

/-- A Created event of another provider: resource 8. -/
def otherCreated : EventResourceOrderCreateOrderSuccess :=
  { sampleCreated with ResourceIndex := 8 }

/-- A configuration for resource 7 whose machine has 8 cpus and 1024 of memory. -/
def bigConfig : Config :=
  { sampleConfig with Vm := { sampleConfig.Vm with Cpu := 8, Mem := 1024 } }

/-- A configuration for resource 7 with order 42 recorded. -/
def orderConfig : Config :=
  { sampleConfig with ChainRegInfo := { sampleConfig.ChainRegInfo with OrderIndex := 42 } }

/-- Collaborators of a chain that turns down a registration once one has been
made and turns down every removal; otherwise as `Env.reliable`. -/
def Env.strict (cfg : Config) : Env :=
  { Env.reliable cfg noRecords with
    RegisterResource := fun tr _ =>
      if tr.any Action.isRegisterResource then some "resource already registered" else none
    RemoveResource := fun _ _ => some "removal rejected" }

/-- A running listener: a fresh one after `SetState(true)` on the strict chain. -/
def runningWorld : World :=
  (SetState (Env.strict sampleConfig) true World.init).1

/-- A restart that fails: `SetState(true)` on the running listener, when the chain
turns the second registration down. -/
def failedRestart : World × Option Error :=
  SetState (Env.strict sampleConfig) true runningWorld

/-- What the watch task may do to a world: it leaves the listener and the number of
contexts alone and adds only `Save` calls and calls of the lifecycle sink. -/
def WatchStep (w w1 : World) : Prop :=
  w1.l = w.l ∧ w1.contexts = w.contexts ∧
    ∃ acts : List Action, w1.trace = w.trace ++ acts ∧
      ∀ a ∈ acts, (a.isSave || a.isRequest) = true

/-- The worlds the listener can be in: a fresh listener, then calls of `SetState`
and, in between, the watch loop working through what it receives. -/
inductive Reachable (env : Env) : World → Prop where
  | init : Reachable env World.init
  | setState (option : Bool) (w : World) :
      Reachable env w → Reachable env (SetState env option w).1
  | watch (key : List Nat) (received : List (Option StorageChangeSet)) (w w1 : World) :
      Reachable env w → watchLoop env key w received = .ok w1 → Reachable env w1

/-- The bookkeeping of contexts: the handle held, every context cancelled and every
watch task belong to a context already made, and a watch task whose context is
not cancelled is the one whose handle is held. -/
def Inv (w : World) : Prop :=
  (∀ c, w.l.cancel = some c → c < w.contexts) ∧
  (∀ c, Action.cancel c ∈ w.trace → c < w.contexts) ∧
  (∀ c, c ∈ tasks w.trace → Action.cancel c ∈ w.trace ∨ w.l.cancel = some c)

/-- Decoded records with one Created event for resource 7 and order 42 and one
Renewed event for the same resource and order. -/
def sampleRecords : MyEventRecords :=
  { ResourceOrder_CreateOrderSuccess := [sampleCreated]
    ResourceOrder_ReNewOrderSuccess := [{ OrderIndex := 42, ResourceIndex := 7 }]
    ResourceOrder_WithdrawLockedOrderPriceSuccess := [] }

/-- One change-set with one delta under the events key `[1]`. -/
def sampleReceived : List (Option StorageChangeSet) :=
  [some { Block := 1
          Changes := [{ StorageKey := [1], HasStorageData := true, StorageData := [0] }] }]

/-- A fresh listener after `SetState(true)`, on collaborators that never fail and
decode `sampleRecords`. -/
def startedWorld : World :=
  (SetState (Env.reliable sampleConfig sampleRecords) true World.init).1

/-- The world `startedWorld` after its watch loop has worked through `sampleReceived`:
order 42 saved, a `Create` and a `Renew` request forwarded. -/
def watchedWorld : World :=
  { startedWorld with trace := startedWorld.trace ++
      [Action.Save orderConfig,
        Action.Create
          { Tag := OpTag.OPCreatedVm, Cpu := 2, Mem := 4096, Disk := 50, OrderNo := 42,
            System := "ubuntu", PublicKey := "pk", Image := "img" },
        Action.Renew { Tag := OpTag.OPRenewVM, OrderNo := 42 }] }

/-- The world `watchedWorld` after a second `SetState(true)`. -/
def restartedWorld : World :=
  (SetState (Env.reliable sampleConfig sampleRecords) true watchedWorld).1

/-- The change-sets delivered before cancellation: what `select` received up to
the first `ctx.Done()`. -/
def delivered : List (Option StorageChangeSet) → List StorageChangeSet
  | [] => []
  | none :: _ => []
  | some set :: rest => set :: delivered rest

/-- In the spec's words: of the storage deltas of one change-set, those whose key
is the events key, that carry data and whose event records decode (under the
metadata `meta`), each given as its decoded records, in the order of the deltas. -/
def decodedDeltas (env : Env) (key : List Nat) (meta : Option Metadata) :
    List KeyValueOption → List MyEventRecords
  | [] => []
  | chng :: rest =>
    if chng.StorageKey = key ∧ chng.HasStorageData = true then
      match env.DecodeEventRecords meta chng.StorageData with
      | .records evt => evt :: decodedDeltas env key meta rest
      | _ => decodedDeltas env key meta rest
    else
      decodedDeltas env key meta rest

/-- In the spec's words: the decoded records of all the deltas of a sequence of
change-sets that have the events key, carry data and decode. -/
def decodedRecords (env : Env) (key : List Nat) (meta : Option Metadata) :
    List StorageChangeSet → List MyEventRecords
  | [] => []
  | set :: rest => decodedDeltas env key meta set.Changes ++ decodedRecords env key meta rest

/-- In the spec's words: every event of every decoded record list is routed, in
order; a panic of a handler ends the routing. -/
def routeAll (env : Env) : World → List MyEventRecords → Except Error World
  | w, [] => .ok w
  | w, evt :: rest =>
    match dealRecords env w evt with
    | .error err => .error err
    | .ok w1 => routeAll env w1 rest

/-- Collaborators as in `Env.reliable`, except for the decoder: it panics when it
is given a nil metadata pointer; given metadata, only the storage data `[0]`
decodes (to `records`) and any other data makes it return an error. -/
def Env.picky (cfg : Config) (records : MyEventRecords) : Env :=
  { Env.reliable cfg records with
    DecodeEventRecords := fun meta data =>
      match meta with
      | none => .panic "invalid memory address or nil pointer dereference"
      | some _ =>
        if data = [0] then .records records
        else .failure "unable to decode event records" }

/-- Collaborators as in `Env.picky`, except that the node cannot be reached while
the loop runs: `GetMetadataLatest` at line 121 returns a nil pointer and an error. -/
def Env.offline (cfg : Config) (records : MyEventRecords) : Env :=
  { Env.picky cfg records with
    GetMetadataLatestAt := fun _ => (none, some "connection closed") }

/-- Two change-sets under the events key `[1]`: the data `[9]` of the first does
not decode on `Env.picky`, the data `[0]` of the second does. -/
def failingThenValid : List (Option StorageChangeSet) :=
  [some { Block := 1
          Changes := [{ StorageKey := [1], HasStorageData := true, StorageData := [9] }] },
    some { Block := 2
           Changes := [{ StorageKey := [1], HasStorageData := true, StorageData := [0] }] }]

/-! ## The three handlers -/

/-- C1: when the configuration manager returns `cfg` and the Created event `e` has
`e.ResourceIndex == cfg.ChainRegInfo.ResourceIndex`, `dealCreateOrderSuccess`
returns (no panic) having made exactly two calls, in this order: `Save` of a
configuration whose `ChainRegInfo.OrderIndex` is `e.OrderIndex`, then `Create` of
one request with `Tag = OPCreatedVm` and `OrderNo = e.OrderIndex`; no `Renew` and
no `Destroy` is called. -/
theorem dealCreateOrderSuccess_match (env : Env) (w : World) (cfg : Config)
    (e : EventResourceOrderCreateOrderSuccess)
    (hcfg : env.GetConfig w.trace = .ok cfg)
    (hres : e.ResourceIndex = cfg.ChainRegInfo.ResourceIndex) :
    ∃ (saved : Config) (evt : VmRequest),
      dealCreateOrderSuccess env w e =
        .ok { w with trace := w.trace ++ [Action.Save saved, Action.Create evt] } ∧
      saved.ChainRegInfo.OrderIndex = e.OrderIndex ∧
      evt.Tag = OpTag.OPCreatedVm ∧ evt.OrderNo = e.OrderIndex := by
  refine ⟨{ cfg with ChainRegInfo := { cfg.ChainRegInfo with OrderIndex := e.OrderIndex } },
    { Tag := OpTag.OPCreatedVm, Cpu := cfg.Vm.Cpu, Mem := cfg.Vm.Mem, Disk := cfg.Vm.Disk,
      OrderNo := e.OrderIndex, System := cfg.Vm.System, PublicKey := e.PublicKey,
      Image := cfg.Vm.Image }, ?_, rfl, rfl, rfl⟩
  simp [dealCreateOrderSuccess, hcfg, hres, NewU64, uint64]

/-- An instance of the preceding theorem, at resource 7 and order 42. -/
theorem dealCreateOrderSuccess_match_witness :
    ((Env.reliable sampleConfig noRecords).GetConfig World.init.trace = .ok sampleConfig ∧
      sampleCreated.ResourceIndex = sampleConfig.ChainRegInfo.ResourceIndex) ∧
    ∃ (saved : Config) (evt : VmRequest),
      dealCreateOrderSuccess (Env.reliable sampleConfig noRecords) World.init sampleCreated =
        .ok { World.init with
          trace := World.init.trace ++ [Action.Save saved, Action.Create evt] } ∧
      saved.ChainRegInfo.OrderIndex = sampleCreated.OrderIndex ∧
      evt.Tag = OpTag.OPCreatedVm ∧ evt.OrderNo = sampleCreated.OrderIndex :=
  ⟨⟨rfl, rfl⟩,
    dealCreateOrderSuccess_match (Env.reliable sampleConfig noRecords) World.init sampleConfig
      sampleCreated rfl rfl⟩

/-- C2: when the configuration manager returns `cfg`, a handler given an event that
does not match it (a Created or Renewed event whose `ResourceIndex` differs from
`cfg.ChainRegInfo.ResourceIndex`, a Cancelled event whose `OrderIndex` differs from
`cfg.ChainRegInfo.OrderIndex`) returns with the world as it was: no request is
forwarded, no `Save` is called, the listener is untouched. -/
theorem deal_no_match (env : Env) (w : World) (cfg : Config)
    (hcfg : env.GetConfig w.trace = .ok cfg) :
    (∀ e : EventResourceOrderCreateOrderSuccess,
      e.ResourceIndex ≠ cfg.ChainRegInfo.ResourceIndex →
        dealCreateOrderSuccess env w e = .ok w) ∧
    (∀ e : EventResourceOrderReNewOrderSuccess,
      e.ResourceIndex ≠ cfg.ChainRegInfo.ResourceIndex →
        dealReNewOrderSuccess env w e = .ok w) ∧
    (∀ e : EventResourceOrderWithdrawLockedOrderPriceSuccess,
      e.OrderIndex ≠ cfg.ChainRegInfo.OrderIndex →
        dealCancelOrderSuccess env w e = .ok w) := by
  refine ⟨?_, ?_, ?_⟩
  · intro e hne
    simp [dealCreateOrderSuccess, hcfg, hne, NewU64]
  · intro e hne
    simp [dealReNewOrderSuccess, hcfg, hne, NewU64]
  · intro e hne
    simp [dealCancelOrderSuccess, hcfg, hne, NewU64]

/-- An instance of the preceding theorem, at a configuration for resource 7 and order 42,
with events for resource 8 and order 99. -/
theorem deal_no_match_witness :
    (Env.reliable orderConfig noRecords).GetConfig World.init.trace = .ok orderConfig ∧
    dealCreateOrderSuccess (Env.reliable orderConfig noRecords) World.init otherCreated =
      .ok World.init ∧
    dealReNewOrderSuccess (Env.reliable orderConfig noRecords) World.init
      { OrderIndex := 42, ResourceIndex := 8 } = .ok World.init ∧
    dealCancelOrderSuccess (Env.reliable orderConfig noRecords) World.init
      { OrderIndex := 99, ResourceIndex := 7 } = .ok World.init :=
  have h := deal_no_match (Env.reliable orderConfig noRecords) World.init orderConfig rfl
  ⟨rfl, h.1 otherCreated (by decide), h.2.1 { OrderIndex := 42, ResourceIndex := 8 } (by decide),
    h.2.2 { OrderIndex := 99, ResourceIndex := 7 } (by decide)⟩

/-- C3: when the configuration manager returns `cfg`, `dealCancelOrderSuccess` on a
Cancelled event `e` returns (no panic) and forwards a request exactly when
`e.OrderIndex == cfg.ChainRegInfo.OrderIndex`, whatever the resource index of the
event or of the configuration: on a match its only call is `Destroy` of one
request with `Tag = OPDestroyVm`, `OrderNo = e.OrderIndex` and `Cpu`, `Mem`, `Disk`,
`System`, `Image` taken from `cfg.Vm`; otherwise it makes no call.  In neither
case is `Save` called. -/
theorem dealCancelOrderSuccess_spec (env : Env) (w : World) (cfg : Config)
    (e : EventResourceOrderWithdrawLockedOrderPriceSuccess)
    (hcfg : env.GetConfig w.trace = .ok cfg) :
    dealCancelOrderSuccess env w e =
      .ok (if e.OrderIndex = cfg.ChainRegInfo.OrderIndex then
        { w with trace := w.trace ++ [Action.Destroy
          { Tag := OpTag.OPDestroyVm, Cpu := cfg.Vm.Cpu, Mem := cfg.Vm.Mem,
            Disk := cfg.Vm.Disk, OrderNo := e.OrderIndex, System := cfg.Vm.System,
            Image := cfg.Vm.Image }] }
      else w) := by
  by_cases h : e.OrderIndex = cfg.ChainRegInfo.OrderIndex
  · simp [dealCancelOrderSuccess, hcfg, h, NewU64, uint64]
  · simp [dealCancelOrderSuccess, hcfg, h, NewU64]

/-- An instance of the preceding theorem, at a configuration with order 42 (and
resource 7): a Cancelled event for order 42 and resource 9 gives one `Destroy`
request for order 42, a Cancelled event for order 99 and resource 7 gives nothing. -/
theorem dealCancelOrderSuccess_spec_witness :
    (Env.reliable orderConfig noRecords).GetConfig World.init.trace = .ok orderConfig ∧
    dealCancelOrderSuccess (Env.reliable orderConfig noRecords) World.init
        { OrderIndex := 42, ResourceIndex := 9 } =
      .ok { World.init with trace := [Action.Destroy
        { Tag := OpTag.OPDestroyVm, Cpu := 2, Mem := 4096, Disk := 50, OrderNo := 42,
          System := "ubuntu", Image := "img" }] } ∧
    dealCancelOrderSuccess (Env.reliable orderConfig noRecords) World.init
        { OrderIndex := 99, ResourceIndex := 7 } = .ok World.init :=
  ⟨rfl,
    dealCancelOrderSuccess_spec (Env.reliable orderConfig noRecords) World.init orderConfig
      { OrderIndex := 42, ResourceIndex := 9 } rfl,
    dealCancelOrderSuccess_spec (Env.reliable orderConfig noRecords) World.init orderConfig
      { OrderIndex := 99, ResourceIndex := 7 } rfl⟩

/-- C4: when the configuration manager returns `cfg`, `dealReNewOrderSuccess` on a
Renewed event `e` returns (no panic) and forwards a request exactly when
`e.ResourceIndex == cfg.ChainRegInfo.ResourceIndex`: on a match its only call is
`Renew` of one request with `Tag = OPRenewVM` and `OrderNo = e.OrderIndex` (every
other field zero); otherwise it makes no call.  In neither case is `Save` called. -/
theorem dealReNewOrderSuccess_spec (env : Env) (w : World) (cfg : Config)
    (e : EventResourceOrderReNewOrderSuccess)
    (hcfg : env.GetConfig w.trace = .ok cfg) :
    dealReNewOrderSuccess env w e =
      .ok (if e.ResourceIndex = cfg.ChainRegInfo.ResourceIndex then
        { w with trace := w.trace ++ [Action.Renew
          { Tag := OpTag.OPRenewVM, OrderNo := e.OrderIndex }] }
      else w) := by
  by_cases h : e.ResourceIndex = cfg.ChainRegInfo.ResourceIndex
  · simp [dealReNewOrderSuccess, hcfg, h, NewU64, uint64]
  · simp [dealReNewOrderSuccess, hcfg, h, NewU64]

/-- An instance of the preceding theorem, at a configuration for resource 7: a
Renewed event for resource 7 and order 43 gives one `Renew` request for order 43,
a Renewed event for resource 8 gives nothing. -/
theorem dealReNewOrderSuccess_spec_witness :
    (Env.reliable orderConfig noRecords).GetConfig World.init.trace = .ok orderConfig ∧
    dealReNewOrderSuccess (Env.reliable orderConfig noRecords) World.init
        { OrderIndex := 43, ResourceIndex := 7 } =
      .ok { World.init with trace := [Action.Renew
        { Tag := OpTag.OPRenewVM, OrderNo := 43 }] } ∧
    dealReNewOrderSuccess (Env.reliable orderConfig noRecords) World.init
        { OrderIndex := 43, ResourceIndex := 8 } = .ok World.init :=
  ⟨rfl,
    dealReNewOrderSuccess_spec (Env.reliable orderConfig noRecords) World.init orderConfig
      { OrderIndex := 43, ResourceIndex := 7 } rfl,
    dealReNewOrderSuccess_spec (Env.reliable orderConfig noRecords) World.init orderConfig
      { OrderIndex := 43, ResourceIndex := 8 } rfl⟩

/-- C10, as stated, fails: with a configuration for resource 7 whose machine has 8
cpus and 1024 of memory, the Created event for resource 7 and order 42 that
carries 2 cpus and 4096 of memory is forwarded as a `Create` request with 8 cpus
and 1024 of memory, the values of the configuration and not those of the event. -/
theorem dealCreateOrderSuccess_event_shape_counterexample :
    bigConfig.ChainRegInfo.ResourceIndex = 7 ∧
    sampleCreated.ResourceIndex = 7 ∧ sampleCreated.OrderIndex = 42 ∧
    sampleCreated.Cpu = 2 ∧ sampleCreated.Mem = 4096 ∧
    dealCreateOrderSuccess (Env.reliable bigConfig noRecords) World.init sampleCreated =
      .ok { World.init with trace :=
        [Action.Save { bigConfig with
            ChainRegInfo := { ResourceIndex := 7, OrderIndex := 42, Price := 1 } },
          Action.Create
            { Tag := OpTag.OPCreatedVm, Cpu := 8, Mem := 1024, Disk := 50, OrderNo := 42,
              System := "ubuntu", PublicKey := "pk", Image := "img" }] } ∧
    (8 : Nat) ≠ sampleCreated.Cpu ∧ (1024 : Nat) ≠ sampleCreated.Mem :=
  ⟨rfl, rfl, rfl, rfl, rfl, rfl, by decide, by decide⟩

/-- C10, amended: when the configuration manager returns `cfg` and the Created event
`e` has `e.ResourceIndex == cfg.ChainRegInfo.ResourceIndex`, the configuration
saved is `cfg` with `ChainRegInfo.OrderIndex` set to `e.OrderIndex`, and the one
`Create` request forwarded has `OrderNo = e.OrderIndex`, takes `Cpu`, `Mem`,
`Disk`, `System` and `Image` from `cfg.Vm` and `PublicKey` from the event; the
cpu and memory the event carries play no part. -/
theorem dealCreateOrderSuccess_config_shape (env : Env) (w : World) (cfg : Config)
    (e : EventResourceOrderCreateOrderSuccess)
    (hcfg : env.GetConfig w.trace = .ok cfg)
    (hres : e.ResourceIndex = cfg.ChainRegInfo.ResourceIndex) :
    dealCreateOrderSuccess env w e =
      .ok { w with trace := w.trace ++
        [Action.Save { cfg with
            ChainRegInfo := { cfg.ChainRegInfo with OrderIndex := e.OrderIndex } },
          Action.Create
            { Tag := OpTag.OPCreatedVm, Cpu := cfg.Vm.Cpu, Mem := cfg.Vm.Mem,
              Disk := cfg.Vm.Disk, OrderNo := e.OrderIndex, System := cfg.Vm.System,
              PublicKey := e.PublicKey, Image := cfg.Vm.Image }] } := by
  simp [dealCreateOrderSuccess, hcfg, hres, NewU64, uint64]

/-- An instance of the preceding theorem, at a configuration for
resource 7 whose machine has 2 cpus and 4096 of memory: the Created event for
resource 7 and order 42 is forwarded as `Create` for order 42 with 2 cpus and 4096
of memory, and order 42 is saved. -/
theorem dealCreateOrderSuccess_config_shape_witness :
    ((Env.reliable sampleConfig noRecords).GetConfig World.init.trace = .ok sampleConfig ∧
      sampleCreated.ResourceIndex = sampleConfig.ChainRegInfo.ResourceIndex) ∧
    dealCreateOrderSuccess (Env.reliable sampleConfig noRecords) World.init sampleCreated =
      .ok { World.init with trace :=
        [Action.Save { sampleConfig with
            ChainRegInfo := { ResourceIndex := 7, OrderIndex := 42, Price := 1 } },
          Action.Create
            { Tag := OpTag.OPCreatedVm, Cpu := 2, Mem := 4096, Disk := 50, OrderNo := 42,
              System := "ubuntu", PublicKey := "pk", Image := "img" }] } :=
  ⟨⟨rfl, rfl⟩,
    dealCreateOrderSuccess_config_shape (Env.reliable sampleConfig noRecords) World.init
      sampleConfig sampleCreated rfl rfl⟩

/-! ## Starting and stopping -/

/-- The first statement of `start` leaves the `cancel` field as it is. -/
theorem startCancel_l (w : World) : (startCancel w).l = w.l := by
  unfold startCancel
  cases w.l.cancel <;> rfl

/-- The first statement of `start` makes no context. -/
theorem startCancel_contexts (w : World) : (startCancel w).contexts = w.contexts := by
  unfold startCancel
  cases w.l.cancel <;> rfl

/-- The first statement of `stop` clears the `cancel` field. -/
theorem stopCancel_cancel (w : World) : (stopCancel w).l.cancel = none := by
  unfold stopCancel
  cases h : w.l.cancel <;> simp [h]

/-- The first statement of `stop` makes no context. -/
theorem stopCancel_contexts (w : World) : (stopCancel w).contexts = w.contexts := by
  unfold stopCancel
  cases w.l.cancel <;> rfl

/-- What `start` does when the registration is turned down: the handle held, if
any, has been cancelled, the registration has been attempted, nothing else has
happened, and the `cancel` field still holds what it held. -/
theorem start_register_error (env : Env) (w : World) (cfg : Config) (err : Error)
    (hcfg : env.GetConfig (startCancel w).trace = .ok cfg)
    (hreg : env.RegisterResource (startCancel w).trace
      (resourceInfo env (startCancel w).trace cfg) = some err) :
    start env w =
      ({ l := w.l
         contexts := w.contexts
         trace := (startCancel w).trace ++
           [Action.RegisterResource (resourceInfo env (startCancel w).trace cfg)] },
        some err) := by
  simp [start, hcfg, hreg, startCancel_l, startCancel_contexts]

/-- What a successful `start` does: the handle held, if any, is cancelled, the
resource is registered, a new context is made and a watch task started on it. -/
theorem start_ok (env : Env) (w w1 : World) (h : start env w = (w1, none)) :
    ∃ r : ResourceInfo,
      w1 = { l := { cancel := some w.contexts, ctx2 := some w.contexts }
             contexts := w.contexts + 1
             trace := (startCancel w).trace ++
               [Action.RegisterResource r, Action.WithCancel w.contexts,
                 Action.watchEvent w.contexts] } := by
  unfold start at h
  simp only [] at h
  cases hc : env.GetConfig (startCancel w).trace with
  | error e => simp [hc] at h
  | ok cfg =>
    simp only [hc] at h
    cases hr : env.RegisterResource (startCancel w).trace
        (resourceInfo env (startCancel w).trace cfg) with
    | some e => simp [hr] at h
    | none =>
      simp only [hr, Prod.mk.injEq, and_true] at h
      refine ⟨resourceInfo env (startCancel w).trace cfg, ?_⟩
      rw [← h]
      simp [startCancel_contexts]

/-- What `stop` does when the configuration cannot be read: the handle held, if
any, is cancelled and cleared, the read error is returned and `RemoveResource` is
not called. -/
theorem stop_config_error (env : Env) (w : World) (err : Error)
    (hcfg : env.GetConfig (stopCancel w).trace = .error err) :
    stop env w = (stopCancel w, some err) := by
  simp [stop, hcfg]

/-- C5, evaluated where it fails: a fresh listener is started (the registration is
accepted, `GetState()` is true, the watch task runs on context 0) and
`SetState(true)` is called again while the chain turns the registration down.  The
call returns that error, starts no watch task and has cancelled context 0, yet
the `cancel` field still holds the handle of context 0, so `GetState()` returns
true where the claim says false. -/
theorem failedRestart_GetState :
    GetState runningWorld.l = true ∧
    runningWorld.l.cancel = some 0 ∧
    failedRestart.2 = some "resource already registered" ∧
    tasks failedRestart.1.trace = tasks runningWorld.trace ∧
    cancelled failedRestart.1.trace 0 = true ∧
    failedRestart.1.l.cancel = some 0 ∧
    GetState failedRestart.1.l = true := by
  decide

/-- C6, evaluated where it fails: after the failed restart of `failedRestart`
`GetState()` returns true although no watch task is active: the only task ever
started runs on context 0, that context has been cancelled, and the handle held
is the one of context 0. -/
theorem failedRestart_no_live_task :
    GetState failedRestart.1.l = true ∧
    tasks failedRestart.1.trace = [0] ∧
    liveTasks failedRestart.1.trace = [] ∧
    (∀ c, failedRestart.1.l.cancel = some c → cancelled failedRestart.1.trace c = true) := by
  refine ⟨by decide, by decide, by decide, ?_⟩
  intro c hc
  have h0 : failedRestart.1.l.cancel = some 0 := by decide
  rw [h0] at hc
  cases hc
  decide

/-- The scenario of C6 on collaborators that never fail: `GetState()` is false on a
fresh listener, true after `SetState(true)` and false after a following
`SetState(false)`; the handle held after `SetState(true)` is live. -/
theorem GetState_scenario :
    GetState World.init.l = false ∧
    (SetState (Env.reliable sampleConfig noRecords) true World.init).2 = none ∧
    GetState (SetState (Env.reliable sampleConfig noRecords) true World.init).1.l = true ∧
    liveTasks (SetState (Env.reliable sampleConfig noRecords) true World.init).1.trace = [0] ∧
    GetState (SetState (Env.reliable sampleConfig noRecords) false
      (SetState (Env.reliable sampleConfig noRecords) true World.init).1).1.l = false := by
  decide

/-- What `stop` does when the configuration is read: the handle held, if any, is
cancelled and cleared, `RemoveResource` is called with the resource index of the
configuration, and what it returns is returned. -/
theorem stop_ok (env : Env) (w : World) (cfg : Config)
    (hcfg : env.GetConfig (stopCancel w).trace = .ok cfg) :
    stop env w =
      ({ stopCancel w with trace := (stopCancel w).trace ++
          [Action.RemoveResource cfg.ChainRegInfo.ResourceIndex] },
        env.RemoveResource (stopCancel w).trace cfg.ChainRegInfo.ResourceIndex) := by
  simp [stop, hcfg]

/-- C7: when the configuration manager returns `cfg` to `stop`, `SetState(false)`,
whether the listener is running or stopped, calls `RemoveResource` with
`cfg.ChainRegInfo.ResourceIndex` as its last call, returns what that call
returned, and leaves the listener stopped: `GetState()` is false and the context
whose handle was held, if any, has been cancelled, also when the removal fails. -/
theorem SetState_false_spec (env : Env) (w : World) (cfg : Config)
    (hcfg : env.GetConfig (stopCancel w).trace = .ok cfg) :
    (SetState env false w).1.trace =
      (stopCancel w).trace ++ [Action.RemoveResource cfg.ChainRegInfo.ResourceIndex] ∧
    (SetState env false w).2 =
      env.RemoveResource (stopCancel w).trace cfg.ChainRegInfo.ResourceIndex ∧
    GetState (SetState env false w).1.l = false ∧
    (∀ c, w.l.cancel = some c → cancelled (SetState env false w).1.trace c = true) := by
  have hstop : SetState env false w = stop env w := by simp [SetState]
  rw [hstop, stop_ok env w cfg hcfg]
  refine ⟨rfl, rfl, ?_, ?_⟩
  · simp [GetState, stopCancel_cancel]
  · intro c hc
    simp [cancelled, stopCancel, hc]

/-- An instance of the preceding theorem, on the strict chain, for the running listener
and for a fresh one: the removal of resource 7 is attempted, its error is
returned, and the listener is stopped either way. -/
theorem SetState_false_spec_witness :
    (Env.strict sampleConfig).GetConfig (stopCancel runningWorld).trace = .ok sampleConfig ∧
    ((SetState (Env.strict sampleConfig) false runningWorld).1.trace =
      (stopCancel runningWorld).trace ++ [Action.RemoveResource 7] ∧
    (SetState (Env.strict sampleConfig) false runningWorld).2 = some "removal rejected" ∧
    GetState (SetState (Env.strict sampleConfig) false runningWorld).1.l = false ∧
    (∀ c, runningWorld.l.cancel = some c →
      cancelled (SetState (Env.strict sampleConfig) false runningWorld).1.trace c = true)) ∧
    (SetState (Env.strict sampleConfig) false World.init).1.trace = [Action.RemoveResource 7] :=
  ⟨rfl, SetState_false_spec (Env.strict sampleConfig) runningWorld sampleConfig rfl,
    (SetState_false_spec (Env.strict sampleConfig) World.init sampleConfig rfl).1⟩

/-! ## The watch task -/

/-- Doing nothing is a step of the watch task. -/
theorem watchStep_refl (w : World) : WatchStep w w :=
  ⟨rfl, rfl, [], by simp, by simp⟩

/-- Steps of the watch task compose. -/
theorem watchStep_trans {w w1 w2 : World} (h1 : WatchStep w w1) (h2 : WatchStep w1 w2) :
    WatchStep w w2 := by
  obtain ⟨hl1, hc1, a1, ht1, ha1⟩ := h1
  obtain ⟨hl2, hc2, a2, ht2, ha2⟩ := h2
  refine ⟨hl2.trans hl1, hc2.trans hc1, a1 ++ a2, ?_, ?_⟩
  · rw [ht2, ht1, List.append_assoc]
  · intro a ha
    rcases List.mem_append.1 ha with h | h
    · exact ha1 a h
    · exact ha2 a h

/-- The handler `dealCreateOrderSuccess` makes a step of the watch task. -/
theorem dealCreateOrderSuccess_step (env : Env) (w w1 : World)
    (e : EventResourceOrderCreateOrderSuccess)
    (h : dealCreateOrderSuccess env w e = .ok w1) : WatchStep w w1 := by
  unfold dealCreateOrderSuccess at h
  cases hc : env.GetConfig w.trace with
  | error err => simp [hc] at h
  | ok cfg =>
    simp only [hc] at h
    split at h
    · injection h with h
      subst h
      exact ⟨rfl, rfl, _, rfl, by simp [Action.isSave, Action.isRequest]⟩
    · injection h with h
      subst h
      exact watchStep_refl w

/-- The handler `dealReNewOrderSuccess` makes a step of the watch task. -/
theorem dealReNewOrderSuccess_step (env : Env) (w w1 : World)
    (e : EventResourceOrderReNewOrderSuccess)
    (h : dealReNewOrderSuccess env w e = .ok w1) : WatchStep w w1 := by
  unfold dealReNewOrderSuccess at h
  cases hc : env.GetConfig w.trace with
  | error err => simp [hc] at h
  | ok cfg =>
    simp only [hc] at h
    split at h
    · injection h with h
      subst h
      exact ⟨rfl, rfl, _, rfl, by simp [Action.isSave, Action.isRequest]⟩
    · injection h with h
      subst h
      exact watchStep_refl w

/-- The handler `dealCancelOrderSuccess` makes a step of the watch task. -/
theorem dealCancelOrderSuccess_step (env : Env) (w w1 : World)
    (e : EventResourceOrderWithdrawLockedOrderPriceSuccess)
    (h : dealCancelOrderSuccess env w e = .ok w1) : WatchStep w w1 := by
  unfold dealCancelOrderSuccess at h
  cases hc : env.GetConfig w.trace with
  | error err => simp [hc] at h
  | ok cfg =>
    simp only [hc] at h
    split at h
    · injection h with h
      subst h
      exact ⟨rfl, rfl, _, rfl, by simp [Action.isSave, Action.isRequest]⟩
    · injection h with h
      subst h
      exact watchStep_refl w

/-- A handler loop makes a step of the watch task when its handler does. -/
theorem rangeDeal_step {ε : Type} (deal : World → ε → Except Error World)
    (hdeal : ∀ w w1 e, deal w e = .ok w1 → WatchStep w w1) :
    ∀ (es : List ε) (w w1 : World), rangeDeal deal w es = .ok w1 → WatchStep w w1 := by
  intro es
  induction es with
  | nil =>
    intro w w1 h
    simp only [rangeDeal] at h
    injection h with h
    subst h
    exact watchStep_refl w
  | cons e es ih =>
    intro w w1 h
    simp only [rangeDeal] at h
    cases hd : deal w e with
    | error err => simp [hd] at h
    | ok w2 =>
      simp only [hd] at h
      exact watchStep_trans (hdeal w w2 e hd) (ih w2 w1 h)

/-- The three handler loops make a step of the watch task. -/
theorem dealRecords_step (env : Env) (w w1 : World) (evt : MyEventRecords)
    (h : dealRecords env w evt = .ok w1) : WatchStep w w1 := by
  unfold dealRecords at h
  cases h1 : rangeDeal (dealCreateOrderSuccess env) w evt.ResourceOrder_CreateOrderSuccess with
  | error err => simp [h1] at h
  | ok w2 =>
    simp only [h1] at h
    cases h2 : rangeDeal (dealReNewOrderSuccess env) w2 evt.ResourceOrder_ReNewOrderSuccess with
    | error err => simp [h2] at h
    | ok w3 =>
      simp only [h2] at h
      exact watchStep_trans
        (watchStep_trans (rangeDeal_step _ (dealCreateOrderSuccess_step env) _ w w2 h1)
          (rangeDeal_step _ (dealReNewOrderSuccess_step env) _ w2 w3 h2))
        (rangeDeal_step _ (dealCancelOrderSuccess_step env) _ w3 w1 h)

/-- The loop over the deltas of a change-set makes a step of the watch task. -/
theorem rangeChanges_step (env : Env) (key : List Nat) :
    ∀ (changes : List KeyValueOption) (w w1 : World),
      rangeChanges env key w changes = .ok w1 → WatchStep w w1 := by
  intro changes
  induction changes with
  | nil =>
    intro w w1 h
    simp only [rangeChanges] at h
    injection h with h
    subst h
    exact watchStep_refl w
  | cons chng rest ih =>
    intro w w1 h
    simp only [rangeChanges] at h
    split at h
    · exact ih w w1 h
    · cases hd : env.DecodeEventRecords (env.GetMetadataLatestAt w.trace).1
          chng.StorageData with
      | panic err => simp [hd] at h
      | failure err =>
        simp only [hd] at h
        exact ih w w1 h
      | records evt =>
        simp only [hd] at h
        cases hr : dealRecords env w evt with
        | error err => simp [hr] at h
        | ok w2 =>
          simp only [hr] at h
          exact watchStep_trans (dealRecords_step env w w2 evt hr) (ih w2 w1 h)

/-- The watch loop makes a step of the watch task, whatever it receives. -/
theorem watchLoop_step (env : Env) (key : List Nat) :
    ∀ (received : List (Option StorageChangeSet)) (w w1 : World),
      watchLoop env key w received = .ok w1 → WatchStep w w1 := by
  intro received
  induction received with
  | nil =>
    intro w w1 h
    simp only [watchLoop] at h
    injection h with h
    subst h
    exact watchStep_refl w
  | cons r rest ih =>
    intro w w1 h
    cases r with
    | none =>
      simp only [watchLoop] at h
      injection h with h
      subst h
      exact watchStep_refl w
    | some set =>
      simp only [watchLoop] at h
      cases hr : rangeChanges env key w set.Changes with
      | error err => simp [hr] at h
      | ok w2 =>
        simp only [hr] at h
        exact watchStep_trans (rangeChanges_step env key _ w w2 hr) (ih w2 w1 h)

/-- The method `watchEvent`, when it does not panic, makes a step of the watch task. -/
theorem watchEvent_step (env : Env) (w w1 : World)
    (received : List (Option StorageChangeSet))
    (h : watchEvent env w received = .ok w1) : WatchStep w w1 := by
  unfold watchEvent at h
  cases hm : env.GetMetadataLatest with
  | some err => simp [hm] at h
  | none =>
    simp only [hm] at h
    cases hk : env.CreateStorageKey with
    | error err => simp [hk] at h
    | ok key =>
      simp only [hk] at h
      cases hs : env.SubscribeStorageRaw with
      | some err => simp [hs] at h
      | none =>
        simp only [hs] at h
        exact watchLoop_step env key received w w1 h

/-! ## Sequences of calls -/

/-- A step of the watch task registers nothing. -/
theorem watchStep_countP_register {w w1 : World} (h : WatchStep w w1) :
    w1.trace.countP Action.isRegisterResource = w.trace.countP Action.isRegisterResource := by
  obtain ⟨_, _, acts, ht, ha⟩ := h
  have h0 : acts.countP Action.isRegisterResource = 0 := by
    rw [List.countP_eq_zero]
    intro a hmem
    have := ha a hmem
    cases a <;> simp_all [Action.isSave, Action.isRequest, Action.isRegisterResource]
  rw [ht, List.countP_append, h0, Nat.add_zero]

/-- A step of the watch task removes nothing. -/
theorem watchStep_countP_remove {w w1 : World} (h : WatchStep w w1) :
    w1.trace.countP Action.isRemoveResource = w.trace.countP Action.isRemoveResource := by
  obtain ⟨_, _, acts, ht, ha⟩ := h
  have h0 : acts.countP Action.isRemoveResource = 0 := by
    rw [List.countP_eq_zero]
    intro a hmem
    have := ha a hmem
    cases a <;> simp_all [Action.isSave, Action.isRequest, Action.isRemoveResource]
  rw [ht, List.countP_append, h0, Nat.add_zero]

/-- C8: from a stopped listener, let `SetState(true)` succeed, let the watch loop work
through whatever it receives (nothing, or any change-sets) without a panic, and
let `SetState(false)` follow, the configuration manager returning a configuration
to it.  Then the listener is stopped, and the two calls have made exactly one
`RegisterResource` call and exactly one `RemoveResource` call. -/
theorem SetState_true_then_false (env : Env) (w0 w1 w2 : World) (key : List Nat)
    (received : List (Option StorageChangeSet)) (cfg : Config)
    (hstopped : GetState w0.l = false)
    (hstart : SetState env true w0 = (w1, none))
    (hwatch : watchLoop env key w1 received = .ok w2)
    (hcfg : env.GetConfig (stopCancel w2).trace = .ok cfg) :
    GetState (SetState env false w2).1.l = false ∧
    (SetState env false w2).1.trace.countP Action.isRegisterResource =
      w0.trace.countP Action.isRegisterResource + 1 ∧
    (SetState env false w2).1.trace.countP Action.isRemoveResource =
      w0.trace.countP Action.isRemoveResource + 1 := by
  have hnone : w0.l.cancel = none := by
    cases hc : w0.l.cancel with
    | none => rfl
    | some c => simp [GetState, hc] at hstopped
  have hsc : startCancel w0 = w0 := by simp [startCancel, hnone]
  obtain ⟨r, hw1⟩ := start_ok env w0 w1 (by simpa [SetState] using hstart)
  rw [hsc] at hw1
  have hstep := watchLoop_step env key received w1 w2 hwatch
  have hreg := watchStep_countP_register hstep
  have hrem := watchStep_countP_remove hstep
  have hl2 : w2.l.cancel = some w0.contexts := by rw [hstep.1, hw1]
  have hsc2 : (stopCancel w2).trace = w2.trace ++ [Action.cancel w0.contexts] := by
    simp [stopCancel, hl2]
  have hstop : SetState env false w2 = stop env w2 := by simp [SetState]
  have htr : (SetState env false w2).1.trace = (stopCancel w2).trace ++
      [Action.RemoveResource cfg.ChainRegInfo.ResourceIndex] := by
    rw [hstop, stop_ok env w2 cfg hcfg]
  have hget : GetState (SetState env false w2).1.l = false := by
    rw [hstop, stop_ok env w2 cfg hcfg]
    simp [GetState, stopCancel_cancel]
  refine ⟨hget, ?_, ?_⟩
  · rw [htr, hsc2, List.countP_append, List.countP_append, hreg, hw1]
    simp [List.countP_append, List.countP_cons, Action.isRegisterResource]
  · rw [htr, hsc2, List.countP_append, List.countP_append, hrem, hw1]
    simp [List.countP_append, List.countP_cons, Action.isRemoveResource]

/-- An instance of the preceding theorem, on collaborators that never fail: a fresh
listener is started, its watch loop receives a change-set holding a Created and a
Renewed event for this provider, and the listener is stopped. -/
theorem SetState_true_then_false_witness :
    (GetState World.init.l = false ∧
      SetState (Env.reliable sampleConfig sampleRecords) true World.init =
        (startedWorld, none) ∧
      watchLoop (Env.reliable sampleConfig sampleRecords) [1] startedWorld sampleReceived =
        .ok watchedWorld ∧
      (Env.reliable sampleConfig sampleRecords).GetConfig (stopCancel watchedWorld).trace =
        .ok orderConfig) ∧
    GetState (SetState (Env.reliable sampleConfig sampleRecords) false watchedWorld).1.l =
      false ∧
    (SetState (Env.reliable sampleConfig sampleRecords) false
        watchedWorld).1.trace.countP Action.isRegisterResource =
      World.init.trace.countP Action.isRegisterResource + 1 ∧
    (SetState (Env.reliable sampleConfig sampleRecords) false
        watchedWorld).1.trace.countP Action.isRemoveResource =
      World.init.trace.countP Action.isRemoveResource + 1 :=
  ⟨⟨rfl, rfl, rfl, rfl⟩,
    SetState_true_then_false (Env.reliable sampleConfig sampleRecords) World.init startedWorld
      watchedWorld [1] sampleReceived orderConfig rfl rfl rfl rfl⟩

/-- The watch tasks of a trace made of two parts. -/
theorem tasks_append (tr1 tr2 : List Action) : tasks (tr1 ++ tr2) = tasks tr1 ++ tasks tr2 := by
  induction tr1 with
  | nil => rfl
  | cons a tr ih => cases a <;> simp [tasks, ih]

/-- The bookkeeping of contexts survives calls that neither cancel a context nor
start a watch task. -/
theorem inv_append {w : World} (h : Inv w) (acts : List Action)
    (htasks : tasks acts = []) (hcancel : ∀ c, Action.cancel c ∉ acts) :
    Inv { w with trace := w.trace ++ acts } := by
  obtain ⟨h1, h2, h3⟩ := h
  refine ⟨h1, ?_, ?_⟩
  · intro c hc
    rcases List.mem_append.1 hc with hc | hc
    · exact h2 c hc
    · exact absurd hc (hcancel c)
  · intro c hc
    simp only [tasks_append, htasks, List.append_nil] at hc
    rcases h3 c hc with hc | hc
    · exact Or.inl (List.mem_append_left _ hc)
    · exact Or.inr hc

/-- The bookkeeping of contexts survives a step of the watch task. -/
theorem inv_watchStep {w w1 : World} (h : Inv w) (hstep : WatchStep w w1) : Inv w1 := by
  obtain ⟨hl, hc, acts, ht, ha⟩ := hstep
  have hw1 : w1 = { w with trace := w.trace ++ acts } := by
    cases w1
    cases w
    simp_all
  rw [hw1]
  apply inv_append h
  · clear ht hw1
    induction acts with
    | nil => rfl
    | cons a acts ih =>
      have := ha a (List.mem_cons_self _ _)
      have ih := ih (fun b hb => ha b (List.mem_cons_of_mem _ hb))
      cases a <;> simp_all [tasks, Action.isSave, Action.isRequest]
  · intro c hmem
    have := ha _ hmem
    simp [Action.isSave, Action.isRequest] at this

/-- After the first statement of `start` the bookkeeping of contexts holds and every
watch task has its context cancelled. -/
theorem inv_startCancel {w : World} (h : Inv w) :
    Inv (startCancel w) ∧ ∀ c, c ∈ tasks (startCancel w).trace →
      Action.cancel c ∈ (startCancel w).trace := by
  obtain ⟨h1, h2, h3⟩ := h
  unfold startCancel
  cases hc : w.l.cancel with
  | none =>
    refine ⟨⟨h1, h2, h3⟩, ?_⟩
    intro c hmem
    rcases h3 c hmem with h | h
    · exact h
    · simp [hc] at h
  | some c0 =>
    refine ⟨⟨h1, ?_, ?_⟩, ?_⟩
    · intro c hmem
      simp only [List.mem_append, List.mem_singleton] at hmem
      rcases hmem with hmem | hmem
      · exact h2 c hmem
      · injection hmem with hmem
        subst hmem
        exact h1 c hc
    · intro c hmem
      simp only [tasks_append, tasks, List.append_nil] at hmem
      rcases h3 c hmem with h | h
      · exact Or.inl (List.mem_append_left _ h)
      · exact Or.inr h
    · intro c hmem
      simp only [tasks_append, tasks, List.append_nil] at hmem
      rcases h3 c hmem with h | h
      · exact List.mem_append_left _ h
      · rw [hc] at h
        injection h with h
        subst h
        simp

/-- After the first statement of `stop` the bookkeeping of contexts holds. -/
theorem inv_stopCancel {w : World} (h : Inv w) : Inv (stopCancel w) := by
  obtain ⟨h1, h2, h3⟩ := h
  unfold stopCancel
  cases hc : w.l.cancel with
  | none => exact ⟨h1, h2, h3⟩
  | some c0 =>
    refine ⟨?_, ?_, ?_⟩
    · intro c hmem
      simp at hmem
    · intro c hmem
      simp only [List.mem_append, List.mem_singleton] at hmem
      rcases hmem with hmem | hmem
      · exact h2 c hmem
      · injection hmem with hmem
        subst hmem
        exact h1 c hc
    · intro c hmem
      simp only [tasks_append, tasks, List.append_nil] at hmem
      rcases h3 c hmem with h | h
      · exact Or.inl (List.mem_append_left _ h)
      · rw [hc] at h
        injection h with h
        subst h
        exact Or.inl (by simp)

/-- The bookkeeping of contexts survives `start`, whatever its outcome. -/
theorem inv_start {w : World} (env : Env) (h : Inv w) : Inv (start env w).1 := by
  obtain ⟨hinv, hall⟩ := inv_startCancel h
  unfold start
  simp only []
  cases hc : env.GetConfig (startCancel w).trace with
  | error err => exact hinv
  | ok cfg =>
    simp only []
    cases hr : env.RegisterResource (startCancel w).trace
        (resourceInfo env (startCancel w).trace cfg) with
    | some err =>
      exact inv_append hinv _ rfl (by simp)
    | none =>
      obtain ⟨h1, h2, h3⟩ := hinv
      dsimp only
      refine ⟨?_, ?_, ?_⟩
      · intro c hmem
        simp only [Option.some.injEq] at hmem
        show c < (startCancel w).contexts + 1
        omega
      · intro c hmem
        have hmem2 : Action.cancel c ∈ (startCancel w).trace := by
          simpa using hmem
        have := h2 c hmem2
        show c < (startCancel w).contexts + 1
        omega
      · intro c hmem
        simp only [tasks_append, tasks, List.append_nil, List.mem_append,
          List.mem_singleton] at hmem
        rcases hmem with hmem | hmem
        · exact Or.inl (List.mem_append_left _ (List.mem_append_left _ (hall c hmem)))
        · subst hmem
          exact Or.inr rfl

/-- The bookkeeping of contexts survives `stop`, whatever its outcome. -/
theorem inv_stop {w : World} (env : Env) (h : Inv w) : Inv (stop env w).1 := by
  have hinv := inv_stopCancel h
  unfold stop
  simp only []
  cases hc : env.GetConfig (stopCancel w).trace with
  | error err => exact hinv
  | ok cfg => exact inv_append hinv _ rfl (by simp)

/-- The bookkeeping of contexts holds in every world the listener can be in. -/
theorem reachable_inv {env : Env} {w : World} (h : Reachable env w) : Inv w := by
  induction h with
  | init => exact ⟨by simp [World.init, NewChainListener], by simp [World.init],
      by simp [World.init, tasks]⟩
  | setState option w _ ih =>
    cases option
    · exact inv_stop env ih
    · exact inv_start env ih
  | watch key received w w1 _ hw ih =>
    exact inv_watchStep ih (watchLoop_step env key received w w1 hw)

/-- C9: in any world the listener can be in, let `SetState(true)` succeed, let the
watch loop work through whatever it receives, and let `SetState(true)` succeed
again.  The first call started a watch task on a context `c1` and held its
handle; the calls of the second are, in this order, the cancellation of `c1`,
the registration, the making of a new context `c2` and the start of a watch task
on `c2`; afterwards the handle held is the one of `c2`, and the watch task on
`c2` is the only one whose context is not cancelled. -/
theorem SetState_true_twice (env : Env) (w0 w1 w2 w3 : World) (key : List Nat)
    (received : List (Option StorageChangeSet))
    (hreach : Reachable env w0)
    (hfirst : SetState env true w0 = (w1, none))
    (hwatch : watchLoop env key w1 received = .ok w2)
    (hsecond : SetState env true w2 = (w3, none)) :
    ∃ (c1 c2 : Nat) (r : ResourceInfo),
      w1.l.cancel = some c1 ∧ c1 ∈ tasks w1.trace ∧ liveTasks w1.trace = [c1] ∧
      w3.trace = w2.trace ++ [Action.cancel c1, Action.RegisterResource r,
        Action.WithCancel c2, Action.watchEvent c2] ∧
      w3.l.cancel = some c2 ∧ c1 ≠ c2 ∧ liveTasks w3.trace = [c2] := by
  have hinv0 := reachable_inv hreach
  obtain ⟨hinv0c, hall0⟩ := inv_startCancel hinv0
  obtain ⟨r1, hw1⟩ := start_ok env w0 w1 (by simpa [SetState] using hfirst)
  have hinv1 : Inv w1 := by
    have := inv_start env hinv0
    rw [show start env w0 = (w1, none) by simpa [SetState] using hfirst] at this
    exact this
  have hstep := watchLoop_step env key received w1 w2 hwatch
  have hinv2 : Inv w2 := inv_watchStep hinv1 hstep
  have hl2 : w2.l.cancel = some w0.contexts := by rw [hstep.1, hw1]
  have hc2 : w2.contexts = w0.contexts + 1 := by rw [hstep.2.1, hw1]
  have hsc2 : (startCancel w2).trace = w2.trace ++ [Action.cancel w0.contexts] := by
    simp [startCancel, hl2]
  obtain ⟨r2, hw3⟩ := start_ok env w2 w3 (by simpa [SetState] using hsecond)
  rw [hsc2, hc2] at hw3
  have hlive1 : liveTasks w1.trace = [w0.contexts] := by
    have hnot : cancelled w1.trace w0.contexts = false := by
      simp only [cancelled, decide_eq_false_iff_not]
      intro hmem
      have := hinv1.2.1 _ hmem
      have hc1 : w1.contexts = w0.contexts + 1 := by rw [hw1]
      rw [hw1] at hmem
      simp only [List.mem_append, List.mem_cons, List.mem_singleton, reduceCtorEq,
        List.mem_nil_iff, or_false] at hmem
      have := hinv0c.2.1 _ hmem
      rw [startCancel_contexts] at this
      omega
    have hold : (tasks (startCancel w0).trace).filter
        (fun c => !cancelled w1.trace c) = [] := by
      rw [List.filter_eq_nil_iff]
      intro c hmem
      have := hall0 c hmem
      simp only [cancelled, Bool.not_eq_true, Bool.not_eq_false_eq_eq_true,
        decide_eq_true_eq, Bool.not_eq_eq_eq_not, Bool.not_true, decide_eq_false_iff_not,
        not_not]
      rw [hw1]
      exact List.mem_append_left _ this
    unfold liveTasks
    conv_lhs => arg 2; rw [hw1]
    simp only [tasks_append, tasks, List.filter_append, hold, List.nil_append]
    simp [List.filter, hnot]
  have hmem1 : w0.contexts ∈ tasks w1.trace := by
    rw [hw1]
    simp [tasks_append, tasks]
  have hnot3 : cancelled w3.trace (w0.contexts + 1) = false := by
    simp only [cancelled, decide_eq_false_iff_not]
    intro hmem
    rw [hw3] at hmem
    have hmem2 : Action.cancel (w0.contexts + 1) ∈ w2.trace ∨
        w0.contexts + 1 = w0.contexts := by
      simpa using hmem
    rcases hmem2 with h | h
    · have := hinv2.2.1 _ h
      omega
    · omega
  have hold3 : (tasks w2.trace).filter (fun c => !cancelled w3.trace c) = [] := by
    rw [List.filter_eq_nil_iff]
    intro c hmem
    simp only [cancelled, Bool.not_eq_true, Bool.not_eq_false_eq_eq_true,
      decide_eq_true_eq, Bool.not_eq_eq_eq_not, Bool.not_true, decide_eq_false_iff_not,
      not_not]
    rw [hw3]
    rcases hinv2.2.2 c hmem with h | h
    · exact List.mem_append_left _ (List.mem_append_left _ h)
    · rw [hl2] at h
      injection h with h
      subst h
      simp
  refine ⟨w0.contexts, w0.contexts + 1, r2, ?_, hmem1, hlive1, ?_, ?_, by omega, ?_⟩
  · rw [hw1]
  · rw [hw3]
    simp
  · rw [hw3]
  · unfold liveTasks
    conv_lhs => arg 2; rw [hw3]
    simp only [tasks_append, tasks, List.filter_append, hold3, List.nil_append,
      List.append_nil]
    simp [List.filter, hnot3]

/-- An instance of the preceding theorem, on collaborators that never fail: a fresh
listener is started, its watch loop receives a change-set, and the listener is
started again; the task on context 1 is then the only live one. -/
theorem SetState_true_twice_witness :
    (Reachable (Env.reliable sampleConfig sampleRecords) World.init ∧
      SetState (Env.reliable sampleConfig sampleRecords) true World.init =
        (startedWorld, none) ∧
      watchLoop (Env.reliable sampleConfig sampleRecords) [1] startedWorld sampleReceived =
        .ok watchedWorld ∧
      SetState (Env.reliable sampleConfig sampleRecords) true watchedWorld =
        (restartedWorld, none)) ∧
    (∃ (c1 c2 : Nat) (r : ResourceInfo),
      startedWorld.l.cancel = some c1 ∧ c1 ∈ tasks startedWorld.trace ∧
      liveTasks startedWorld.trace = [c1] ∧
      restartedWorld.trace = watchedWorld.trace ++ [Action.cancel c1,
        Action.RegisterResource r, Action.WithCancel c2, Action.watchEvent c2] ∧
      restartedWorld.l.cancel = some c2 ∧ c1 ≠ c2 ∧ liveTasks restartedWorld.trace = [c2]) ∧
    liveTasks restartedWorld.trace = [1] :=
  ⟨⟨Reachable.init, rfl, rfl, rfl⟩,
    SetState_true_twice (Env.reliable sampleConfig sampleRecords) World.init startedWorld
      watchedWorld restartedWorld [1] sampleReceived Reachable.init rfl rfl rfl,
    by decide⟩

/-! ## Decoding in the watch loop -/

/-- A delta whose event records fail to decode, the decoder returning an error, is
passed over: the loop over the deltas goes on with the remaining ones from the
same world. -/
theorem rangeChanges_decode_error (env : Env) (key : List Nat) (w : World)
    (chng : KeyValueOption) (rest : List KeyValueOption) (err : Error)
    (hdec : env.DecodeEventRecords (env.GetMetadataLatestAt w.trace).1 chng.StorageData =
      .failure err) :
    rangeChanges env key w (chng :: rest) = rangeChanges env key w rest := by
  simp only [rangeChanges, hdec]
  split <;> rfl

/-- A delta under the events key that carries data and on which the decoder panics
ends the loop over the deltas with that panic, whatever deltas follow. -/
theorem rangeChanges_decode_panic (env : Env) (key : List Nat) (w : World)
    (chng : KeyValueOption) (rest : List KeyValueOption) (err : Error)
    (hkey : chng.StorageKey = key) (hdata : chng.HasStorageData = true)
    (hdec : env.DecodeEventRecords (env.GetMetadataLatestAt w.trace).1 chng.StorageData =
      .panic err) :
    rangeChanges env key w (chng :: rest) = .error err := by
  simp [rangeChanges, hdec, hkey, hdata]

/-- Routing two lists of decoded records one after the other. -/
theorem routeAll_append (env : Env) :
    ∀ (xs ys : List MyEventRecords) (w : World),
      routeAll env w (xs ++ ys) =
        match routeAll env w xs with
        | .error err => .error err
        | .ok w1 => routeAll env w1 ys := by
  intro xs
  induction xs with
  | nil =>
    intro ys w
    simp [routeAll]
  | cons x xs ih =>
    intro ys w
    simp only [List.cons_append, routeAll]
    cases hx : dealRecords env w x with
    | error err => rfl
    | ok w1 => exact ih ys w1

/-- While the metadata fetched in the loop is `meta` and the decoder does not panic
on it, the loop over the deltas of a change-set routes exactly the records of the
deltas that have the events key, carry data and decode. -/
theorem rangeChanges_eq_routeAll (env : Env) (key : List Nat) (meta : Option Metadata)
    (hmeta : ∀ tr, (env.GetMetadataLatestAt tr).1 = meta)
    (hsafe : ∀ data err, env.DecodeEventRecords meta data ≠ .panic err) :
    ∀ (changes : List KeyValueOption) (w : World),
      rangeChanges env key w changes =
        routeAll env w (decodedDeltas env key meta changes) := by
  intro changes
  induction changes with
  | nil =>
    intro w
    rfl
  | cons chng rest ih =>
    intro w
    simp only [rangeChanges, decodedDeltas, hmeta]
    by_cases hk : chng.StorageKey = key
    · cases hd : chng.HasStorageData with
      | false => simpa [hk, hd] using ih w
      | true =>
        cases hdec : env.DecodeEventRecords meta chng.StorageData with
        | panic err => exact absurd hdec (hsafe _ _)
        | failure err => simpa [hk, hd, hdec] using ih w
        | records evt =>
          simp only [hk, hd, hdec, ne_eq, not_true_eq_false, Bool.true_eq_false, or_self,
            if_false, and_self, if_true, routeAll]
          cases hr : dealRecords env w evt with
          | error err => rfl
          | ok w1 => exact ih w1
    · simpa [hk] using ih w

/-- A handler loop returns when its handler always does. -/
theorem rangeDeal_total {ε : Type} (deal : World → ε → Except Error World)
    (hdeal : ∀ w e, ∃ w1, deal w e = .ok w1) :
    ∀ (es : List ε) (w : World), ∃ w1, rangeDeal deal w es = .ok w1 := by
  intro es
  induction es with
  | nil =>
    intro w
    exact ⟨w, rfl⟩
  | cons e es ih =>
    intro w
    obtain ⟨w1, h1⟩ := hdeal w e
    obtain ⟨w2, h2⟩ := ih w1
    exact ⟨w2, by simp [rangeDeal, h1, h2]⟩

/-- The three handler loops return when the configuration can always be read. -/
theorem dealRecords_total (env : Env) (hcfg : ∀ tr, ∃ cfg, env.GetConfig tr = .ok cfg)
    (w : World) (evt : MyEventRecords) : ∃ w1, dealRecords env w evt = .ok w1 := by
  have hcreate : ∀ w e, ∃ w1, dealCreateOrderSuccess env w e = .ok w1 := by
    intro w e
    obtain ⟨cfg, hc⟩ := hcfg w.trace
    unfold dealCreateOrderSuccess
    simp only [hc]
    split <;> exact ⟨_, rfl⟩
  have hrenew : ∀ w e, ∃ w1, dealReNewOrderSuccess env w e = .ok w1 := by
    intro w e
    obtain ⟨cfg, hc⟩ := hcfg w.trace
    unfold dealReNewOrderSuccess
    simp only [hc]
    split <;> exact ⟨_, rfl⟩
  have hcancel : ∀ w e, ∃ w1, dealCancelOrderSuccess env w e = .ok w1 := by
    intro w e
    obtain ⟨cfg, hc⟩ := hcfg w.trace
    unfold dealCancelOrderSuccess
    simp only [hc]
    split <;> exact ⟨_, rfl⟩
  obtain ⟨w1, h1⟩ := rangeDeal_total _ hcreate evt.ResourceOrder_CreateOrderSuccess w
  obtain ⟨w2, h2⟩ := rangeDeal_total _ hrenew evt.ResourceOrder_ReNewOrderSuccess w1
  obtain ⟨w3, h3⟩ :=
    rangeDeal_total _ hcancel evt.ResourceOrder_WithdrawLockedOrderPriceSuccess w2
  exact ⟨w3, by simp [dealRecords, h1, h2, h3]⟩

/-- Routing returns when the configuration can always be read. -/
theorem routeAll_total (env : Env) (hcfg : ∀ tr, ∃ cfg, env.GetConfig tr = .ok cfg) :
    ∀ (records : List MyEventRecords) (w : World), ∃ w1, routeAll env w records = .ok w1 := by
  intro records
  induction records with
  | nil =>
    intro w
    exact ⟨w, rfl⟩
  | cons evt rest ih =>
    intro w
    obtain ⟨w1, h1⟩ := dealRecords_total env hcfg w evt
    obtain ⟨w2, h2⟩ := ih w1
    exact ⟨w2, by simp [routeAll, h1, h2]⟩

/-- While the metadata fetched in the loop is `meta` and the decoder does not panic
on it, the watch loop routes exactly the records of the deltas, of the change-sets
delivered before cancellation, that have the events key, carry data and decode. -/
theorem watchLoop_eq_routeAll (env : Env) (key : List Nat) (meta : Option Metadata)
    (hmeta : ∀ tr, (env.GetMetadataLatestAt tr).1 = meta)
    (hsafe : ∀ data err, env.DecodeEventRecords meta data ≠ .panic err) :
    ∀ (received : List (Option StorageChangeSet)) (w : World),
      watchLoop env key w received =
        routeAll env w (decodedRecords env key meta (delivered received)) := by
  intro received
  induction received with
  | nil =>
    intro w
    rfl
  | cons r rest ih =>
    intro w
    cases r with
    | none => rfl
    | some set =>
      simp only [watchLoop, delivered, decodedRecords, routeAll_append,
        rangeChanges_eq_routeAll env key meta hmeta hsafe]
      cases hr : routeAll env w (decodedDeltas env key meta set.Changes) with
      | error err => rfl
      | ok w1 => exact ih w1

/-- With the metadata fetched, a change-set whose data does not decode is passed
over and the one that follows is handled: order 42 is saved, a `Create` and a
`Renew` request are forwarded. -/
theorem watchLoop_failingThenValid :
    rangeChanges (Env.picky sampleConfig sampleRecords) [1] startedWorld
        [{ StorageKey := [1], HasStorageData := true, StorageData := [9] }] =
      .ok startedWorld ∧
    decodedRecords (Env.picky sampleConfig sampleRecords) [1] (some 14)
        (delivered failingThenValid) = [sampleRecords] ∧
    watchLoop (Env.picky sampleConfig sampleRecords) [1] startedWorld failingThenValid =
      .ok watchedWorld :=
  ⟨rfl, rfl, rfl⟩

/-- C11, evaluated where it fails: the watch loop of the started listener receives
the two change-sets of `failingThenValid` while `GetMetadataLatest` at line 121
returns a nil pointer and an error.  The error is not looked at, the nil pointer
goes to the decoder, the decoder panics, and the loop ends on the first delta:
nothing is passed over and the second change-set, whose records are the only
ones that decode once the metadata is there, is never handled.  The claim has
the loop go on, which with no delta decoding leaves the world as it was. -/
theorem watchLoop_nil_metadata_panic :
    (Env.offline sampleConfig sampleRecords).GetMetadataLatestAt startedWorld.trace =
      (none, some "connection closed") ∧
    rangeChanges (Env.offline sampleConfig sampleRecords) [1] startedWorld
        [{ StorageKey := [1], HasStorageData := true, StorageData := [9] }] =
      .error "invalid memory address or nil pointer dereference" ∧
    watchLoop (Env.offline sampleConfig sampleRecords) [1] startedWorld failingThenValid =
      .error "invalid memory address or nil pointer dereference" ∧
    watchLoop (Env.offline sampleConfig sampleRecords) [1] startedWorld failingThenValid ≠
      .ok startedWorld ∧
    watchLoop (Env.picky sampleConfig sampleRecords) [1] startedWorld failingThenValid =
      .ok watchedWorld := by
  refine ⟨rfl, rfl, rfl, ?_, rfl⟩
  intro h
  have h2 : watchLoop (Env.offline sampleConfig sampleRecords) [1] startedWorld
      failingThenValid = .error "invalid memory address or nil pointer dereference" := rfl
  rw [h2] at h
  cases h

end listener
